import Mathlib

/-!
Verification of the calendar-range compression and demand-aggregation logic of
the repository (scripts/extract_airbnb_forward_calendar.py and
src/airbnb_dashboard.py), via a shallow embedding in Lean.

Dates are embedded as `Date` records (year, month, day) together with a
rata-die day number (`Date.toDays`, days counted from 0000-03-01 of the
proleptic Gregorian calendar, the standard "civil calendar" algorithms).
Python's `datetime.date` arithmetic (`+ timedelta(days=1)`) and total order
correspond to `+ 1` and `≤` on day numbers.
-/

/-- A calendar date as in Python's `datetime.date`: `year ∈ [1, 9999]`,
`month ∈ [1, 12]`, `day ∈ [1, days in month]` for genuine dates. -/
structure Date where
  year : ℕ
  month : ℕ
  day : ℕ
deriving DecidableEq, Repr

/-- Gregorian leap-year test, as in Python's `calendar.isleap`. -/
def isLeap (y : ℕ) : Bool :=
  y % 4 == 0 && (y % 100 != 0 || y % 400 == 0)

/-- Number of days in a month of a given year (Python `calendar.monthrange`). -/
def daysInMonth (y m : ℕ) : ℕ :=
  if m = 2 then (if isLeap y then 29 else 28)
  else if m = 4 ∨ m = 6 ∨ m = 9 ∨ m = 11 then 30
  else 31

/-- Whether (year, month, day) is a valid `datetime.date` argument triple;
`datetime.date(y, m, d)` raises `ValueError` exactly when this fails. -/
def validDate (y m d : ℕ) : Prop :=
  1 ≤ y ∧ y ≤ 9999 ∧ 1 ≤ m ∧ m ≤ 12 ∧ 1 ≤ d ∧ d ≤ daysInMonth y m

instance (y m d : ℕ) : Decidable (validDate y m d) := by
  unfold validDate; infer_instance

/-- Rata-die day number of a date (days since 0000-03-01), by the standard
civil-calendar algorithm. Python's `date` ordering and day arithmetic agree
with the ordering and successor of this number. -/
def Date.toDays (x : Date) : ℕ :=
  let y := if x.month ≤ 2 then x.year - 1 else x.year
  let era := y / 400
  let yoe := y % 400
  let mp := if 2 < x.month then x.month - 3 else x.month + 9
  let doy := (153 * mp + 2) / 5 + (x.day - 1)
  let doe := yoe * 365 + yoe / 4 - yoe / 100 + doy
  era * 146097 + doe

/-! Inverse of `Date.toDays`, by the layered civil-calendar algorithm: a
400-year era (146097 days) splits into four centuries (36524 days each,
except 36525 for the last), each century into 25 quadrennia (1461 days
each, except 1460 for the last of a short century), each quadrennium into
four March-based years (365 days each, except 366 for the last).  This is
the standard algorithm with each division capped by `min`, exactly equal
to the well-known closed formula (and to Python's `datetime`) on every
day number. -/

/-- Century within the era: `min (doe / 36524) 3`. -/
def civilC (doe : ℕ) : ℕ :=
  min (doe / 36524) 3

/-- Day within the century. -/
def civilDc (doe : ℕ) : ℕ :=
  doe - 36524 * civilC doe

/-- Quadrennium within the century. -/
def civilQ (doe : ℕ) : ℕ :=
  civilDc doe / 1461

/-- Day within the quadrennium. -/
def civilDq (doe : ℕ) : ℕ :=
  civilDc doe % 1461

/-- Year within the quadrennium: `min (dq / 365) 3`. -/
def civilYy (doe : ℕ) : ℕ :=
  min (civilDq doe / 365) 3

/-- Day of the March-based year. -/
def civilDoy (doe : ℕ) : ℕ :=
  civilDq doe - 365 * civilYy doe

/-- Year of the era, `0 ≤ yoe ≤ 399`. -/
def civilYoe (doe : ℕ) : ℕ :=
  100 * civilC doe + 4 * civilQ doe + civilYy doe

/-- Shifted month (March = 0 … February = 11). -/
def civilMp (doe : ℕ) : ℕ :=
  (5 * civilDoy doe + 2) / 153

/-- Linear month code of a day of the era: `12 * yoe + mp`; the month
index `12 * year + month` of the date of day `z` equals
`4800 * (z / 146097) + monthCode (z % 146097) + 3`. -/
def monthCode (doe : ℕ) : ℕ :=
  12 * civilYoe doe + civilMp doe

/-- The date of a rata-die day number (inverse of `Date.toDays`). -/
def Date.ofDays (z : ℕ) : Date :=
  let era := z / 146097
  let doe := z % 146097
  let yoe := civilYoe doe
  let doy := civilDoy doe
  let mp := civilMp doe
  let d := doy - (153 * mp + 2) / 5 + 1
  let m := if mp < 10 then mp + 3 else mp - 9
  let y := yoe + era * 400 + (if m ≤ 2 then 1 else 0)
  ⟨y, m, d⟩

/-- Python `date.weekday()` of a rata-die day number: Monday = 0 … Sunday = 6. -/
def weekdayOfDays (z : ℕ) : ℕ :=
  (z + 2) % 7

/-- Digit test for ASCII characters, modelling `str.isdigit` / regex `\d`
(restricted to ASCII; the repository only ever feeds ASCII digits). -/
def isDigitChar (c : Char) : Bool :=
  ('0') ≤ c && c ≤ ('9')

/-- Numeric value of an ASCII digit character. -/
def digitVal (c : Char) : ℕ :=
  c.toNat - 48

/-- Zero-padded two-digit decimal rendering, as in `date.isoformat`. -/
def pad2 (n : ℕ) : String :=
  (if n < 10 then ("0") else ("")) ++ toString n

/-- Zero-padded four-digit decimal rendering, as in `date.isoformat`. -/
def pad4 (n : ℕ) : String :=
  (if n < 10 then ("000") else if n < 100 then ("00") else if n < 1000 then ("0") else ("")) ++ toString n

/-- `date.isoformat()`: `YYYY-MM-DD`. -/
def Date.isoformat (x : Date) : String :=
  pad4 x.year ++ ("-") ++ pad2 x.month ++ ("-") ++ pad2 x.day

/-- `datetime.date.fromisoformat` on the canonical `YYYY-MM-DD` layout:
`none` models a raised `ValueError` (wrong shape or out-of-range component).
(Python 3.11+ also accepts some other ISO-8601 layouts; the repository only
produces and consumes the canonical one.) -/
def fromisoformat (s : String) : Option Date :=
  match s.data with
  | [y1, y2, y3, y4, h1, m1, m2, h2, d1, d2] =>
    if isDigitChar y1 && isDigitChar y2 && isDigitChar y3 && isDigitChar y4 &&
       h1 == ('-') && isDigitChar m1 && isDigitChar m2 && h2 == ('-') &&
       isDigitChar d1 && isDigitChar d2 then
      let y := ((digitVal y1 * 10 + digitVal y2) * 10 + digitVal y3) * 10 + digitVal y4
      let m := digitVal m1 * 10 + digitVal m2
      let d := digitVal d1 * 10 + digitVal d2
      if validDate y m d then some ⟨y, m, d⟩ else none
    else none
  | _ => none

/-- Python string `≤` (code-point lexicographic on the character sequences);
`sorted` on strings sorts by this order. -/
def charsLe : List Char → List Char → Bool
  | [], _ => true
  | _ :: _, [] => false
  | a :: as, b :: bs => if a < b then true else if b < a then false else charsLe as bs

/-- The order used by Python's `sorted` on a list of strings. -/
def pyStrLe (a b : String) : Prop :=
  charsLe a.data b.data = true

instance : DecidableRel pyStrLe := by
  unfold pyStrLe; infer_instance

/-! ## `compress_ranges` (scripts/extract_airbnb_forward_calendar.py)

The source sorts the ISO strings (for this fixed-width format lexicographic
order is chronological order), parses them to `datetime.date`, then makes a
single pass merging runs of consecutive days into `(start, prev)` pairs, and
finally renders each pair.  `rangesLoop`/`compress_ranges` embed the pass on
rata-die day numbers; `compress_ranges_str` is the end-to-end string version
(with `Option` modelling the `ValueError` that `fromisoformat` would raise on
a malformed element). -/

/-- The scan of `compress_ranges`: `start`/`prev` are the current run's
bounds; a gap (`cur - prev ≠ 1 day`) closes the run. -/
def rangesLoop (start prev : ℕ) : List ℕ → List (ℕ × ℕ)
  | [] => [(start, prev)]
  | cur :: rest =>
    if cur - prev = 1 then rangesLoop start cur rest
    else (start, prev) :: rangesLoop cur cur rest

/-- `compress_ranges` on rata-die day numbers, producing the inclusive
`(start, end)` pairs that the source renders as strings. -/
def compress_ranges (dates : List ℕ) : List (ℕ × ℕ) :=
  match List.insertionSort (· ≤ ·) dates with
  | [] => []
  | d0 :: rest => rangesLoop d0 d0 rest

/-- Rendering of one compressed pair: `"<start> to <end>"`, or the single
ISO date when the run has length 1. -/
def renderRange (p : Date × Date) : String :=
  if p.1 ≠ p.2 then p.1.isoformat ++ (" to ") ++ p.2.isoformat else p.1.isoformat

/-- The scan of `compress_ranges` on parsed dates (comparing via day
numbers, as Python date subtraction does). -/
def rangesLoopD (start prev : Date) : List Date → List (Date × Date)
  | [] => [(start, prev)]
  | cur :: rest =>
    if cur.toDays - prev.toDays = 1 then rangesLoopD start cur rest
    else (start, prev) :: rangesLoopD cur cur rest

/-- End-to-end `compress_ranges` on ISO strings, exactly as in the source:
sort the strings, parse each (`none` models the `ValueError` raised on a
malformed element), merge runs, render. -/
def compress_ranges_str (dates : List String) : Option (List String) :=
  if dates = [] then some [] else
  match (List.insertionSort pyStrLe dates).mapM fromisoformat with
  | none => none
  | some [] => some []
  | some (d0 :: rest) => some ((rangesLoopD d0 d0 rest).map renderRange)

example : compress_ranges [10, 11, 12, 14] = [(10, 12), (14, 14)] := by decide
example :
    fromisoformat ("2026-03-01") = some ⟨2026, 3, 1⟩ := by decide

/-! ## Free-text date ranges (src/airbnb_dashboard.py)

`DATE_RANGE_RE = \b([A-Z][a-z]{2})\s+(\d{1,2})\s*[–-]\s*(\d{1,2})\b` is
embedded as an explicit leftmost backtracking matcher over the character
list (character classes restricted to ASCII, which is all the repository
ever produces).  `searchDR` returns the three captured groups of the
leftmost match, with the day groups already converted by `int`. -/

/-- ASCII model of regex `\w` (used for `\b` word boundaries). -/
def isWordChar (c : Char) : Bool :=
  c.isAlpha || isDigitChar c || c == ('_')

/-- ASCII model of regex `\s`. -/
def isSpaceChar (c : Char) : Bool :=
  c == (' ') || c == ('\t') || c == ('\n') || c == ('\r') || c == ('\x0b') || c == ('\x0c')

/-- The character class `[–-]` (en dash or hyphen). -/
def isDashChar (c : Char) : Bool :=
  c == ('-') || c == ('–')

/-- Greedy `\s*`. -/
def skipSpaces : List Char → List Char
  | c :: rest => if isSpaceChar c then skipSpaces rest else c :: rest
  | [] => []

/-- Second `(\d{1,2})` of `DATE_RANGE_RE` followed by `\b`: greedy two
digits, backtracking to one. -/
def drSecondDigits (mon : String) (sd : ℕ) : List Char → Option (String × ℕ × ℕ)
  | a :: b :: rest =>
    if isDigitChar a && isDigitChar b &&
       (match rest with | [] => true | c :: _ => !isWordChar c) then
      some (mon, sd, digitVal a * 10 + digitVal b)
    else if isDigitChar a && !isWordChar b then
      some (mon, sd, digitVal a)
    else none
  | [a] => if isDigitChar a then some (mon, sd, digitVal a) else none
  | [] => none

/-- `\s*[–-]\s*` then the second day group. -/
def drDash (mon : String) (sd : ℕ) (cs : List Char) : Option (String × ℕ × ℕ) :=
  match skipSpaces cs with
  | c :: rest => if isDashChar c then drSecondDigits mon sd (skipSpaces rest) else none
  | [] => none

/-- First `(\d{1,2})` of `DATE_RANGE_RE`: greedy two digits, backtracking
to one. -/
def drFirstDigits (mon : String) : List Char → Option (String × ℕ × ℕ)
  | a :: b :: rest =>
    if isDigitChar a && isDigitChar b then
      match drDash mon (digitVal a * 10 + digitVal b) rest with
      | some r => some r
      | none => drDash mon (digitVal a) (b :: rest)
    else if isDigitChar a then drDash mon (digitVal a) (b :: rest)
    else none
  | [a] => if isDigitChar a then drDash mon (digitVal a) [] else none
  | [] => none

/-- `\s+` between the month abbreviation and the first day group. -/
def drSpaces1 (mon : String) : List Char → Option (String × ℕ × ℕ)
  | c :: rest => if isSpaceChar c then drFirstDigits mon (skipSpaces rest) else none
  | [] => none

/-- Attempt to match `DATE_RANGE_RE` (minus its leading `\b`) at the head
of the character list: `([A-Z][a-z]{2})` then the rest of the pattern. -/
def drTryAt : List Char → Option (String × ℕ × ℕ)
  | c1 :: c2 :: c3 :: rest =>
    if c1.isUpper && c2.isLower && c3.isLower then
      drSpaces1 (String.mk [c1, c2, c3]) rest
    else none
  | _ => none

/-- `re.search` scan: try every position left to right whose preceding
character is not a word character (the leading `\b`; the first matched
character is always `[A-Z]`, a word character). -/
def drScan (prevWord : Bool) : List Char → Option (String × ℕ × ℕ)
  | [] => none
  | c :: rest =>
    if prevWord then drScan (isWordChar c) rest
    else
      match drTryAt (c :: rest) with
      | some r => some r
      | none => drScan (isWordChar c) rest

/-- `DATE_RANGE_RE.search(text)`, returning `(month group, int(start day),
int(end day))` of the leftmost match. -/
def searchDR (text : String) : Option (String × ℕ × ℕ) :=
  drScan false text.data

/-- The module-level `MONTHS` table: three-letter abbreviation to month
number (`dict.get`, `none` when absent). -/
def MONTHS (s : String) : Option ℕ :=
  if s = ("Jan") then some 1
  else if s = ("Feb") then some 2
  else if s = ("Mar") then some 3
  else if s = ("Apr") then some 4
  else if s = ("May") then some 5
  else if s = ("Jun") then some 6
  else if s = ("Jul") then some 7
  else if s = ("Aug") then some 8
  else if s = ("Sep") then some 9
  else if s = ("Oct") then some 10
  else if s = ("Nov") then some 11
  else if s = ("Dec") then some 12
  else none

/-- `_expand_date_range(text, year)`.  The result is the list of covered
days as rata-die day numbers; `Except.error ()` models an uncaught Python
`ValueError` (raised by `dt.date(...)` when a matched day number is not a
valid day of the matched month, or the year is out of range).  No match,
an unknown month abbreviation, and a reversed range all return `ok []`. -/
def _expand_date_range (text : String) (year : ℕ) : Except Unit (List ℕ) :=
  match searchDR text with
  | none => .ok []
  | some (mon, sd, ed) =>
    match MONTHS mon with
    | none => .ok []
    | some month =>
      if validDate year month sd then
        if validDate year month ed then
          if Date.toDays ⟨year, month, ed⟩ < Date.toDays ⟨year, month, sd⟩ then .ok []
          else .ok ((List.range (Date.toDays ⟨year, month, ed⟩ + 1 - Date.toDays ⟨year, month, sd⟩)).map
            (Date.toDays ⟨year, month, sd⟩ + ·))
        else .error ()
      else .error ()

/-- `_band(count, max_count)`.  The source compares
`ratio = count / max_count` (floating point) against `0`, `0.25`, `0.5` and
`0.75`; those thresholds and integer operands of realistic size (< 2^53)
are exact in binary floating point, so each comparison is embedded by its
exact cross-multiplied integer form (`count / max_count ≤ 1/4  ↔
4 * count ≤ max_count`, etc.; see the C4 theorem for the ratio form). -/
def _band (count max_count : ℕ) : ℕ :=
  if max_count ≤ 0 then 0
  else if count ≤ 0 then 0
  else if 4 * count ≤ max_count then 1
  else if 2 * count ≤ max_count then 2
  else if 4 * count ≤ 3 * max_count then 3
  else 4

example : searchDR ("stay Mar 6–1 nights") = some (("Mar"), 6, 1) := by decide
example : searchDR ("no range here") = none := by decide
example : _band 1 4 = 1 ∧ _band 2 4 = 2 ∧ _band 3 4 = 3 ∧ _band 4 4 = 4 ∧ _band 0 4 = 0 := by decide

/-! ## JSON (`json.loads`) and `_expand_iso_ranges`

`booked_ranges` is a JSON document.  `Json`/`json_loads` embed the strict
`json.loads` grammar for null, booleans, integers, strings, arrays and
objects (floats, `NaN`/`Infinity` tokens and surrogate-pair `\u` escapes
are not modelled — the repository only ever stores arrays of ISO range
strings, and the claims only case on the parser's outcome).  `pyStr`
models Python's `str()` on a decoded value. -/

inductive Json where
  | null : Json
  | bool (b : Bool) : Json
  | num (n : ℤ) : Json
  | str (s : String) : Json
  | arr (items : List Json) : Json
  | obj (members : List (String × Json)) : Json

/-- JSON insignificant whitespace. -/
def skipJsonWs : List Char → List Char
  | c :: rest =>
    if c == (' ') || c == ('\t') || c == ('\n') || c == ('\r') then skipJsonWs rest
    else c :: rest
  | [] => []

/-- Single-character JSON string escapes. -/
def jsonEscapeChar (c : Char) : Option Char :=
  if c == ('"') then some ('"')
  else if c == ('\\') then some ('\\')
  else if c == ('/') then some ('/')
  else if c == ('b') then some ('\x08')
  else if c == ('f') then some ('\x0c')
  else if c == ('n') then some ('\n')
  else if c == ('r') then some ('\r')
  else if c == ('t') then some ('\t')
  else none

/-- Hexadecimal digit value, for `\uXXXX` escapes. -/
def hexVal (c : Char) : Option ℕ :=
  if isDigitChar c then some (digitVal c)
  else if ('a') ≤ c && c ≤ ('f') then some (c.toNat - 87)
  else if ('A') ≤ c && c ≤ ('F') then some (c.toNat - 55)
  else none

/-- Body of a JSON string literal (after the opening quote). -/
def parseJsonString (acc : List Char) : List Char → Option (String × List Char)
  | [] => none
  | ('"') :: rest => some (String.mk acc.reverse, rest)
  | ('\\') :: ('u') :: h1 :: h2 :: h3 :: h4 :: rest =>
    match hexVal h1, hexVal h2, hexVal h3, hexVal h4 with
    | some a, some b, some c, some d =>
      parseJsonString (Char.ofNat (((a * 16 + b) * 16 + c) * 16 + d) :: acc) rest
    | _, _, _, _ => none
  | ('\\') :: e :: rest =>
    match jsonEscapeChar e with
    | some c => parseJsonString (c :: acc) rest
    | none => none
  | c :: rest =>
    if c.toNat < 32 then none else parseJsonString (c :: acc) rest

/-- Span of decimal digits. -/
def takeDigits : List Char → (List Char × List Char)
  | [] => ([], [])
  | c :: rest =>
    if isDigitChar c then
      let p := takeDigits rest
      (c :: p.1, p.2)
    else ([], c :: rest)

/-- Value of a list of decimal digits. -/
def digitsVal (ds : List Char) : ℕ :=
  ds.foldl (fun acc c => acc * 10 + digitVal c) 0

/-- A JSON integer literal (floats are not modelled). -/
def parseJsonInt : List Char → Option (ℤ × List Char)
  | ('-') :: rest =>
    match parseJsonInt rest with
    | some (n, rest2) => some (-n, rest2)
    | none => none
  | cs =>
    match takeDigits cs with
    | ([], _) => none
    | (d :: ds, rest) =>
      if d == ('0') && ds ≠ [] then none
      else some ((digitsVal (d :: ds) : ℤ), rest)

mutual

/-- A JSON value (fuelled recursive-descent; every recursive call spends
one unit of fuel, and `json_loads` supplies ample fuel). -/
def parseJsonVal : ℕ → List Char → Option (Json × List Char)
  | 0, _ => none
  | fuel + 1, cs =>
    match skipJsonWs cs with
    | ('n') :: ('u') :: ('l') :: ('l') :: rest => some (.null, rest)
    | ('t') :: ('r') :: ('u') :: ('e') :: rest => some (.bool true, rest)
    | ('f') :: ('a') :: ('l') :: ('s') :: ('e') :: rest => some (.bool false, rest)
    | ('"') :: rest =>
      match parseJsonString [] rest with
      | some (s, rest2) => some (.str s, rest2)
      | none => none
    | ('[') :: rest =>
      match skipJsonWs rest with
      | (']') :: rest2 => some (.arr [], rest2)
      | cs2 => parseJsonItems fuel [] cs2
    | ('\x7b') :: rest =>
      match skipJsonWs rest with
      | ('\x7d') :: rest2 => some (.obj [], rest2)
      | cs2 => parseJsonMembers fuel [] cs2
    | cs2 =>
      match parseJsonInt cs2 with
      | some (n, rest) => some (.num n, rest)
      | none => none

/-- Elements of a JSON array (after `[`, first element not yet parsed). -/
def parseJsonItems : ℕ → List Json → List Char → Option (Json × List Char)
  | 0, _, _ => none
  | fuel + 1, acc, cs =>
    match parseJsonVal fuel cs with
    | none => none
    | some (v, rest) =>
      match skipJsonWs rest with
      | (',') :: rest2 => parseJsonItems fuel (v :: acc) rest2
      | (']') :: rest2 => some (.arr (v :: acc).reverse, rest2)
      | _ => none

/-- Members of a JSON object (after `{`, first member not yet parsed). -/
def parseJsonMembers : ℕ → List (String × Json) → List Char → Option (Json × List Char)
  | 0, _, _ => none
  | fuel + 1, acc, cs =>
    match skipJsonWs cs with
    | ('"') :: rest =>
      match parseJsonString [] rest with
      | none => none
      | some (k, rest2) =>
        match skipJsonWs rest2 with
        | (':') :: rest3 =>
          match parseJsonVal fuel rest3 with
          | none => none
          | some (v, rest4) =>
            match skipJsonWs rest4 with
            | (',') :: rest5 => parseJsonMembers fuel ((k, v) :: acc) rest5
            | ('\x7d') :: rest5 => some (.obj ((k, v) :: acc).reverse, rest5)
            | _ => none
        | _ => none
    | _ => none

end

/-- `json.loads`: parse one value and require only whitespace after it;
`none` models a raised `json.JSONDecodeError`. -/
def json_loads (s : String) : Option Json :=
  match parseJsonVal (2 * s.length + 8) s.data with
  | some (j, rest) => if skipJsonWs rest = [] then some j else none
  | none => none

mutual

/-- Python `repr()` of a decoded JSON value (enough of it for `str(item)`
on non-string items; such renderings never begin with four digits and a
dash, so they never match `RANGE_ISO_RE`). -/
def pyRepr : Json → String
  | .null => ("None")
  | .bool true => ("True")
  | .bool false => ("False")
  | .num n => toString n
  | .str s => ("'") ++ s ++ ("'")
  | .arr items => ("[") ++ pyReprList items ++ ("]")
  | .obj members => ("\x7b") ++ pyReprMembers members ++ ("\x7d")

/-- `repr` of array elements, comma-separated. -/
def pyReprList : List Json → String
  | [] => ("")
  | [x] => pyRepr x
  | x :: y :: rest => pyRepr x ++ (", ") ++ pyReprList (y :: rest)

/-- `repr` of object members, comma-separated. -/
def pyReprMembers : List (String × Json) → String
  | [] => ("")
  | [(k, v)] => ("'") ++ k ++ ("': ") ++ pyRepr v
  | (k, v) :: y :: rest => ("'") ++ k ++ ("': ") ++ pyRepr v ++ (", ") ++ pyReprMembers (y :: rest)

end

/-- Python `str()` of a decoded JSON value. -/
def pyStr : Json → String
  | .str s => s
  | j => pyRepr j

/-- `RANGE_ISO_RE`'s leading `\d{4}-\d{2}-\d{2}`, returning the matched
ten characters and the remainder. -/
def matchISOChars : List Char → Option (String × List Char)
  | y1 :: y2 :: y3 :: y4 :: h1 :: m1 :: m2 :: h2 :: d1 :: d2 :: rest =>
    if isDigitChar y1 && isDigitChar y2 && isDigitChar y3 && isDigitChar y4 &&
       h1 == ('-') && isDigitChar m1 && isDigitChar m2 && h2 == ('-') &&
       isDigitChar d1 && isDigitChar d2 then
      some (String.mk [y1, y2, y3, y4, h1, m1, m2, h2, d1, d2], rest)
    else none
  | _ => none

/-- `\s+` then the second date of the optional `(?:\s+to\s+(...))?` part
(after the literal `to` has been consumed). -/
def isoToTail : List Char → Option String
  | c :: rest =>
    if isSpaceChar c then
      match matchISOChars (skipSpaces rest) with
      | some (g2, _) => some g2
      | none => none
    else none
  | [] => none

/-- The optional `\s+to\s+(\d{4}-\d{2}-\d{2})` group of `RANGE_ISO_RE`. -/
def isoToPart : List Char → Option String
  | c :: rest =>
    if isSpaceChar c then
      match skipSpaces rest with
      | ('t') :: ('o') :: rest2 => isoToTail rest2
      | _ => none
    else none
  | [] => none

/-- `RANGE_ISO_RE.match(s)`: the two captured groups (`m.group(2)` is
`none` when the optional part is absent). -/
def range_iso_match (s : String) : Option (String × Option String) :=
  match matchISOChars s.data with
  | none => none
  | some (g1, rest) => some (g1, isoToPart rest)

/-- The `for item in parsed` loop of `_expand_iso_ranges`: skip items that
do not match `RANGE_ISO_RE`; parse the matched groups with `fromisoformat`
(`Except.error ()` models the `ValueError` it raises on an out-of-range
component); append every day from start to end inclusive, as rata-die day
numbers. -/
def itemsLoop : List Json → Except Unit (List ℕ)
  | [] => .ok []
  | item :: rest =>
    match range_iso_match (pyStr item) with
    | none => itemsLoop rest
    | some (g1, g2opt) =>
      match fromisoformat g1 with
      | none => .error ()
      | some dstart =>
        match fromisoformat (g2opt.getD g1) with
        | none => .error ()
        | some dend =>
          match itemsLoop rest with
          | .error e => .error e
          | .ok tail =>
            .ok ((List.range (dend.toDays + 1 - dstart.toDays)).map (dstart.toDays + ·) ++ tail)

/-- `_expand_iso_ranges(raw)`: `None` or empty string contributes nothing;
a `json.JSONDecodeError` is caught (`ok []`); a decoded non-list
contributes nothing; otherwise the item loop runs (and may raise). -/
def _expand_iso_ranges (raw : Option String) : Except Unit (List ℕ) :=
  match raw with
  | none => .ok []
  | some s =>
    if s = ("") then .ok []
    else
      match json_loads s with
      | none => .ok []
      | some (.arr items) => itemsLoop items
      | some _ => .ok []

instance {ε α : Type} [DecidableEq ε] [DecidableEq α] : DecidableEq (Except ε α) := fun a b =>
  match a, b with
  | .error e, .error f => decidable_of_iff (e = f) (by simp)
  | .error _, .ok _ => isFalse (by simp)
  | .ok _, .error _ => isFalse (by simp)
  | .ok x, .ok y => decidable_of_iff (x = y) (by simp)

/-- Projection used to state concrete checks of `json_loads` (the nested
`Json` type has no derived decidable equality): the strings of a decoded
array of strings. -/
def jsonStrList : Json → Option (List String)
  | .arr items => items.mapM (fun j => match j with | .str s => some s | _ => none)
  | _ => none

example : (json_loads ("[\"2026-03-01 to 2026-03-02\", \"2026-03-01\"]")).map jsonStrList
    = some (some [("2026-03-01 to 2026-03-02"), ("2026-03-01")]) := by decide
example : (json_loads ("not json")).isNone = true := by decide
example : _expand_iso_ranges (some ("[\"2026-03-01 to 2026-03-03\"]"))
    = .ok [739981, 739982, 739983] := by decide

/-! ## `build_calendars` (src/airbnb_dashboard.py)

A `Row` carries the three record fields the aggregation reads (`active`,
`booked_ranges`, `date_range_text`).  The demand dict accumulated over the
rows is embedded as the concatenated multiset of covered day numbers
(`demandDays`): the dict maps a day to the number of its occurrences in
that list, so `List.count` is `demand.get(day, 0)` and the dict is empty
iff the list is.  The source reads `dt.date.today().year` for the
free-text fallback; that ambient input is the explicit `year` parameter
here.  `Except.error ()` models an uncaught `ValueError` escaping from the
expansion helpers. -/

structure Row where
  active : Bool
  booked_ranges : Option String
  date_range_text : Option String
deriving DecidableEq, Repr

/-- The body of the per-row loop of `build_calendars`: an inactive row is
skipped; otherwise the structured ISO ranges are expanded, and only when
that expansion is empty is the free-text field parsed (with the ambient
current year). -/
def rowDays (year : ℕ) (r : Row) : Except Unit (List ℕ) :=
  if !r.active then .ok []
  else
    match _expand_iso_ranges r.booked_ranges with
    | .error e => .error e
    | .ok detail =>
      if detail ≠ [] then .ok detail
      else _expand_date_range (r.date_range_text.getD ("")) year

/-- The demand histogram of `build_calendars`, as the concatenation of
every row's covered days (`demand[d]` is the count of `d` in this list). -/
def demandDays (year : ℕ) : List Row → Except Unit (List ℕ)
  | [] => .ok []
  | r :: rs =>
    match rowDays year r with
    | .error e => .error e
    | .ok d =>
      match demandDays year rs with
      | .error e => .error e
      | .ok rest => .ok (d ++ rest)

/-- `min(demand)`: the smallest histogrammed day. -/
def listMin : List ℕ → ℕ
  | [] => 0
  | h :: t => t.foldl Nat.min h

/-- `max(demand)`: the largest histogrammed day. -/
def listMax : List ℕ → ℕ
  | [] => 0
  | h :: t => t.foldl Nat.max h

/-- `max(demand.values())`: the largest per-day count. -/
def maxCount (days : List ℕ) : ℕ :=
  listMax (days.map (fun d => days.count d))

/-- One cell of a month grid: either the empty padding dict or the dict
holding day-of-month, ISO date, count and band. -/
inductive Cell where
  | empty : Cell
  | day (dayOfMonth : ℕ) (iso : String) (count : ℕ) (band : ℕ) : Cell
deriving DecidableEq, Repr

/-- One month grid: `label` (`strftime("%B %Y")`), year, month, weeks. -/
structure Grid where
  label : String
  year : ℕ
  month : ℕ
  weeks : List (List Cell)
deriving DecidableEq, Repr

/-- `strftime("%B")`: the full month name. -/
def monthName (m : ℕ) : String :=
  if m = 1 then ("January")
  else if m = 2 then ("February")
  else if m = 3 then ("March")
  else if m = 4 then ("April")
  else if m = 5 then ("May")
  else if m = 6 then ("June")
  else if m = 7 then ("July")
  else if m = 8 then ("August")
  else if m = 9 then ("September")
  else if m = 10 then ("October")
  else if m = 11 then ("November")
  else ("December")

/-- The cell built for rata-die day `z` of the grid of month `month`:
empty when `z` falls outside the month, else day number, ISO date,
`demand.get(day, 0)` and its band. -/
def mkCell (days : List ℕ) (maxc : ℕ) (month : ℕ) (z : ℕ) : Cell :=
  let d := Date.ofDays z
  if d.month ≠ month then .empty
  else .day d.day d.isoformat (days.count z) (_band (days.count z) maxc)

/-- `calendar.Calendar(firstweekday=0).monthdatescalendar(y, m)`, cell by
cell: full Monday-first weeks from the Monday on or before the 1st through
the Sunday on or after the last day of the month. -/
def monthWeeks (days : List ℕ) (maxc : ℕ) (y m : ℕ) : List (List Cell) :=
  let first := Date.toDays ⟨y, m, 1⟩
  let lead := weekdayOfDays first
  let gstart := first - lead
  let nweeks := (lead + daysInMonth y m + 6) / 7
  (List.range nweeks).map (fun w => (List.range 7).map (fun i => mkCell days maxc m (gstart + 7 * w + i)))

/-- The grid dict appended for one month. -/
def mkGrid (days : List ℕ) (maxc : ℕ) (ym : ℕ × ℕ) : Grid :=
  ⟨monthName ym.2 ++ (" ") ++ toString ym.1, ym.1, ym.2, monthWeeks days maxc ym.1 ym.2⟩

/-- Linearisation of a (year, month) pair; for months in `[1, 12]` its
order is the order of the first-of-month dates that the source's `while
ym <= end_ym` loop compares. -/
def monthIdx (ym : ℕ × ℕ) : ℕ :=
  12 * ym.1 + ym.2

/-- The `# next month` step at the bottom of the source's loop. -/
def nextMonth (ym : ℕ × ℕ) : ℕ × ℕ :=
  if ym.2 = 12 then (ym.1 + 1, 1) else (ym.1, ym.2 + 1)

/-- The `while ym <= end_ym` loop of `build_calendars`, appending one grid
per month.  Each pass moves `ym` one month forward, so `monthIdx` grows by
exactly one per pass; the loop is therefore embedded by structural
recursion on the exact pass count `fuel = monthIdx endYm + 1 - monthIdx
ym`, which `build_calendars` supplies: with that fuel, exhaustion and the
`ym ≤ end_ym` test fail at the same instant, so this equals the source's
`while` loop on every input. -/
def monthsLoop (days : List ℕ) (maxc : ℕ) (endYm : ℕ × ℕ) : ℕ → ℕ × ℕ → List Grid
  | 0, _ => []
  | fuel + 1, ym =>
    if monthIdx ym ≤ monthIdx endYm then
      mkGrid days maxc ym :: monthsLoop days maxc endYm fuel (nextMonth ym)
    else []

/-- `build_calendars(rows)` with the ambient `dt.date.today().year` made
an explicit parameter: accumulate the demand histogram, return no grids
when it is empty, else build one grid per month from the month of the
minimum histogrammed date through the month of the maximum. -/
def build_calendars (year : ℕ) (rows : List Row) : Except Unit (List Grid) :=
  match demandDays year rows with
  | .error e => .error e
  | .ok days =>
    if days = [] then .ok []
    else
      let minD := Date.ofDays (listMin days)
      let maxD := Date.ofDays (listMax days)
      let maxc := maxCount days
      .ok (monthsLoop days maxc (maxD.year, maxD.month)
        (monthIdx (maxD.year, maxD.month) + 1 - monthIdx (minD.year, minD.month))
        (minD.year, minD.month))

/-! ## Concrete rows used in witnesses and counterexamples -/

/-- An active row with a usable structured range list. -/
def rowStructured : Row := ⟨true, some ("[\"2026-03-01 to 2026-03-02\"]"), none⟩

/-- An active row with no structured data and a free-text range. -/
def rowFreeText : Row := ⟨true, none, some ("Mar 1–3")⟩

/-- An active row whose two structured ranges overlap on 2026-03-01. -/
def rowOverlap : Row := ⟨true, some ("[\"2026-03-01 to 2026-03-02\", \"2026-03-01\"]"), none⟩

/-- An active row whose structured range list is present and well-formed
but expands to no days (reversed), plus a free-text range. -/
def rowReversed : Row := ⟨true, some ("[\"2026-03-05 to 2026-03-01\"]"), some ("Mar 1–2")⟩

/-- An active row covering 2026-03-15 through 2026-03-20. -/
def rowMarch : Row := ⟨true, some ("[\"2026-03-15 to 2026-03-20\"]"), none⟩

/-- An inactive row that nevertheless carries ranges. -/
def rowInactive : Row := ⟨false, some ("[\"2026-03-01 to 2026-03-02\"]"), some ("Mar 1–3")⟩

/-! ## Claim theorems -/

/-- C9: compressing the date set {2026-03-01, 2026-03-02, 2026-03-03,
2026-03-05} yields exactly the sequence
["2026-03-01 to 2026-03-03", "2026-03-05"]. -/
theorem C9_compress_concrete :
    compress_ranges_str [("2026-03-01"), ("2026-03-02"), ("2026-03-03"), ("2026-03-05")]
      = some [("2026-03-01 to 2026-03-03"), ("2026-03-05")] := by decide

/-- Cross-multiplied form of a rational threshold comparison. -/
lemma ratio_le_iff (c m k l : ℕ) (hm : 0 < m) (hl : 0 < l) :
    ((c : ℚ) / (m : ℚ) ≤ (k : ℚ) / (l : ℚ)) ↔ c * l ≤ k * m := by
  rw [div_le_div_iff₀ (by exact_mod_cast hm) (by exact_mod_cast hl)]
  exact_mod_cast Iff.rfl

/-- C4: for count ≤ max_count, `_band` returns 0 when count or max_count
is 0, otherwise 1–4 by whether count/max_count is ≤ 1/4, ≤ 1/2, ≤ 3/4 or
greater; for fixed max_count the band is monotone non-decreasing in count,
with count = 0 giving band 0 and count = max_count giving band 4. -/
theorem C4_band_thresholds (max_count : ℕ) :
    (∀ count, count = 0 ∨ max_count = 0 → _band count max_count = 0) ∧
    (∀ count, 0 < count → 0 < max_count → count ≤ max_count →
      _band count max_count =
        if (count : ℚ) / (max_count : ℚ) ≤ (1 : ℚ) / (4 : ℚ) then 1
        else if (count : ℚ) / (max_count : ℚ) ≤ (1 : ℚ) / (2 : ℚ) then 2
        else if (count : ℚ) / (max_count : ℚ) ≤ (3 : ℚ) / (4 : ℚ) then 3
        else 4) ∧
    (∀ c₁ c₂, c₁ ≤ c₂ → _band c₁ max_count ≤ _band c₂ max_count) ∧
    (0 < max_count → _band 0 max_count = 0 ∧ _band max_count max_count = 4) := by
  refine ⟨?_, ?_, ?_, ?_⟩
  · intro count h
    rcases h with h | h <;> subst h <;> unfold _band <;> split_ifs <;> omega
  · intro count hc hm _
    have e1 : ((count : ℚ) / (max_count : ℚ) ≤ (1 : ℚ) / (4 : ℚ)) ↔ 4 * count ≤ max_count := by
      rw [show ((1 : ℚ) = ((1 : ℕ) : ℚ)) by norm_num, show ((4 : ℚ) = ((4 : ℕ) : ℚ)) by norm_num,
        ratio_le_iff count max_count 1 4 hm (by omega)]
      omega
    have e2 : ((count : ℚ) / (max_count : ℚ) ≤ (1 : ℚ) / (2 : ℚ)) ↔ 2 * count ≤ max_count := by
      rw [show ((1 : ℚ) = ((1 : ℕ) : ℚ)) by norm_num, show ((2 : ℚ) = ((2 : ℕ) : ℚ)) by norm_num,
        ratio_le_iff count max_count 1 2 hm (by omega)]
      omega
    have e3 : ((count : ℚ) / (max_count : ℚ) ≤ (3 : ℚ) / (4 : ℚ)) ↔ 4 * count ≤ 3 * max_count := by
      rw [show ((3 : ℚ) = ((3 : ℕ) : ℚ)) by norm_num, show ((4 : ℚ) = ((4 : ℕ) : ℚ)) by norm_num,
        ratio_le_iff count max_count 3 4 hm (by omega)]
      omega
    simp only [e1, e2, e3]
    unfold _band
    split_ifs <;> omega
  · intro c₁ c₂ h
    unfold _band
    split_ifs <;> omega
  · intro hm
    constructor <;> unfold _band <;> split_ifs <;> omega

/-- Witness for C4 at max_count = 4: the theorem applied at counts
0, 3, 2 ≤ 3, and 4. -/
theorem C4_band_thresholds_witness :
    _band 0 4 = 0 ∧
    (_band 3 4 =
      if (3 : ℚ) / (4 : ℚ) ≤ (1 : ℚ) / (4 : ℚ) then 1
      else if (3 : ℚ) / (4 : ℚ) ≤ (1 : ℚ) / (2 : ℚ) then 2
      else if (3 : ℚ) / (4 : ℚ) ≤ (3 : ℚ) / (4 : ℚ) then 3
      else 4) ∧
    _band 2 4 ≤ _band 3 4 ∧
    _band 4 4 = 4 :=
  ⟨(C4_band_thresholds 4).1 0 (Or.inl rfl),
   (C4_band_thresholds 4).2.1 3 (by decide) (by decide) (by decide),
   (C4_band_thresholds 4).2.2.1 2 3 (by decide),
   ((C4_band_thresholds 4).2.2.2 (by decide)).2⟩

/-- C2 (amended): `_expand_date_range` is silent — returns `ok []` rather
than an error — when the text has no `DATE_RANGE_RE` match, when the
matched month abbreviation is unknown, and when the matched days are valid
but the end day precedes the start day; and whenever both matched days are
valid days of the matched month (for the given year) it returns `ok` of
some list.  It raises (`Except.error`) exactly in the remaining case: a
match with a known month whose start or end day is not a valid
`datetime.date` component. -/
theorem C2_expand_date_range_silent (text : String) (year : ℕ) :
    (searchDR text = none → _expand_date_range text year = .ok []) ∧
    (∀ mon sd ed, searchDR text = some (mon, sd, ed) → MONTHS mon = none →
      _expand_date_range text year = .ok []) ∧
    (∀ mon sd ed m, searchDR text = some (mon, sd, ed) → MONTHS mon = some m →
      validDate year m sd → validDate year m ed →
      ∃ l, _expand_date_range text year = .ok l ∧
        (Date.toDays ⟨year, m, ed⟩ < Date.toDays ⟨year, m, sd⟩ → l = [])) ∧
    (∀ e, _expand_date_range text year = .error e →
      ∃ mon sd ed m, searchDR text = some (mon, sd, ed) ∧ MONTHS mon = some m ∧
        (¬ validDate year m sd ∨ ¬ validDate year m ed)) := by
  refine ⟨?_, ?_, ?_, ?_⟩
  · intro h
    unfold _expand_date_range
    rw [h]
  · intro mon sd ed hs hm
    simp only [_expand_date_range, hs, hm]
  · intro mon sd ed m hs hm hvs hve
    simp only [_expand_date_range, hs, hm, if_pos hvs, if_pos hve]
    by_cases hlt : Date.toDays ⟨year, m, ed⟩ < Date.toDays ⟨year, m, sd⟩
    · exact ⟨[], by rw [if_pos hlt], fun _ => rfl⟩
    · exact ⟨_, by rw [if_neg hlt], fun h => absurd h hlt⟩
  · intro e herr
    unfold _expand_date_range at herr
    split at herr
    · simp at herr
    next mon sd ed heq =>
      split at herr
      · simp at herr
      next m heq2 =>
        refine ⟨mon, sd, ed, m, heq, heq2, ?_⟩
        by_cases hvs : validDate year m sd
        · rw [if_pos hvs] at herr
          by_cases hve : validDate year m ed
          · rw [if_pos hve] at herr
            split at herr <;> simp at herr
          · exact Or.inr hve
        · exact Or.inl hvs

/-- Witness for C2 at the spec's reversed example "Mar 6–1" with year
2026: the match is found, the month is known, both days are valid, and the
reversed order yields the empty contribution. -/
theorem C2_expand_date_range_silent_witness :
    ∃ l, _expand_date_range ("Mar 6–1") 2026 = .ok l ∧
      (Date.toDays ⟨2026, 3, 1⟩ < Date.toDays ⟨2026, 3, 6⟩ → l = []) :=
  (C2_expand_date_range_silent ("Mar 6–1") 2026).2.2.1 ("Mar") 6 1 3
    (by decide) (by decide) (by decide) (by decide)

/-- Counterexample to C2 as stated: the free-text "Feb 1–30" matches the
pattern with a known month, but day 30 is not a valid day of February, so
`dt.date(year, 2, 30)` raises `ValueError` and the error propagates
instead of the record contributing zero demand. -/
theorem C2_expand_date_range_cex :
    _expand_date_range ("Feb 1–30") 2026 = .error () := by decide

/-- C10: structured-range expansion never errors on a missing value, an
undecodable document, or a decoded non-list, and a structured range whose
(valid) end date precedes its (valid) start date contributes no days and
no error. -/
theorem C10_expand_iso_ranges_safe :
    (_expand_iso_ranges none = .ok []) ∧
    (_expand_iso_ranges (some ("")) = .ok []) ∧
    (∀ s, json_loads s = none → _expand_iso_ranges (some s) = .ok []) ∧
    (∀ s j, json_loads s = some j → (∀ items, j ≠ .arr items) →
      _expand_iso_ranges (some s) = .ok []) ∧
    (∀ item rest g1 g2 d1 d2,
      range_iso_match (pyStr item) = some (g1, some g2) →
      fromisoformat g1 = some d1 → fromisoformat g2 = some d2 →
      d2.toDays < d1.toDays →
      itemsLoop (item :: rest) = itemsLoop rest) := by
  refine ⟨rfl, rfl, ?_, ?_, ?_⟩
  · intro s h
    simp only [_expand_iso_ranges]
    by_cases he : s = ("")
    · rw [if_pos he]
    · rw [if_neg he, h]
  · intro s j hj hne
    simp only [_expand_iso_ranges]
    by_cases he : s = ("")
    · rw [if_pos he]
    · rw [if_neg he, hj]
      cases j with
      | arr items => exact absurd rfl (hne items)
      | null => rfl
      | bool b => rfl
      | num n => rfl
      | str t => rfl
      | obj members => rfl
  · intro item rest g1 g2 d1 d2 hmatch h1 h2 hlt
    have hz : d2.toDays + 1 - d1.toDays = 0 := by omega
    simp only [itemsLoop, hmatch, Option.getD_some, h1, h2, hz, List.range_zero, List.map_nil,
      List.nil_append]
    cases hrest : itemsLoop rest <;> rfl

/-- Witness for C10's reversed-range clause at the concrete item
"2026-03-05 to 2026-03-01". -/
theorem C10_expand_iso_ranges_safe_witness :
    itemsLoop [Json.str ("2026-03-05 to 2026-03-01")] = itemsLoop [] :=
  C10_expand_iso_ranges_safe.2.2.2.2 (Json.str ("2026-03-05 to 2026-03-01")) []
    ("2026-03-05") ("2026-03-01") ⟨2026, 3, 5⟩ ⟨2026, 3, 1⟩
    (by decide) (by decide) (by decide) (by decide)

/-- C3 (amended): an active record whose structured expansion succeeds
contributes exactly the multiset of days its ranges cover — each day is
incremented once per covering range occurrence, so the increment is at
most one per record only when the expanded days are duplicate-free
(overlapping ranges double-count within the record). -/
theorem C3_record_counts (year : ℕ) (r : Row) (l : List ℕ) (d : ℕ)
    (hact : r.active = true) (hiso : _expand_iso_ranges r.booked_ranges = .ok l)
    (hne : l ≠ []) :
    demandDays year [r] = .ok l ∧ (l.Nodup → l.count d ≤ 1) := by
  constructor
  · simp [demandDays, rowDays, hact, hiso, hne]
  · intro h
    exact List.nodup_iff_count_le_one.mp h d

/-- Witness for C3 at a record whose two-day range has no duplicates. -/
theorem C3_record_counts_witness :
    demandDays 2026 [rowStructured] = .ok [739981, 739982] ∧
    (([739981, 739982] : List ℕ).Nodup → ([739981, 739982] : List ℕ).count 739981 ≤ 1) :=
  C3_record_counts 2026 rowStructured [739981, 739982] 739981 rfl (by decide) (by decide)

/-- Counterexample to C3 as stated: a single active record whose
structured ranges "2026-03-01 to 2026-03-02" and "2026-03-01" overlap
increments the 2026-03-01 bucket (rata die 739981) twice, not at most
once. -/
theorem C3_record_counts_cex :
    demandDays 2026 [rowOverlap] = .ok [739981, 739982, 739981] ∧
    ([739981, 739982, 739981] : List ℕ).count 739981 = 2 := by decide

/-- C6 (amended): an active record whose structured expansion yields a
non-empty day list contributes exactly those days and its free-text field
is ignored (any value of it gives the same result); the free-text form is
parsed exactly when the structured expansion yields no days — which also
happens when structured data is present but expands to nothing. -/
theorem C6_structured_preference (year : ℕ) (r : Row) (l : List ℕ)
    (hact : r.active = true) :
    ((_expand_iso_ranges r.booked_ranges = .ok l ∧ l ≠ []) →
      rowDays year r = .ok l ∧
      ∀ t, rowDays year ⟨r.active, r.booked_ranges, t⟩ = .ok l) ∧
    (_expand_iso_ranges r.booked_ranges = .ok [] →
      rowDays year r = _expand_date_range (r.date_range_text.getD ("")) year) := by
  constructor
  · rintro ⟨hiso, hne⟩
    constructor
    · simp [rowDays, hact, hiso, hne]
    · intro t
      simp [rowDays, hact, hiso, hne]
  · intro hiso
    simp [rowDays, hact, hiso]

/-- Witness for C6 at a record with a usable structured range list. -/
theorem C6_structured_preference_witness :
    ((_expand_iso_ranges rowStructured.booked_ranges = .ok [739981, 739982] ∧
        ([739981, 739982] : List ℕ) ≠ []) →
      rowDays 2026 rowStructured = .ok [739981, 739982] ∧
      ∀ t, rowDays 2026 ⟨rowStructured.active, rowStructured.booked_ranges, t⟩
        = .ok [739981, 739982]) ∧
    (_expand_iso_ranges rowStructured.booked_ranges = .ok [] →
      rowDays 2026 rowStructured
        = _expand_date_range (rowStructured.date_range_text.getD ("")) 2026) :=
  C6_structured_preference 2026 rowStructured [739981, 739982] rfl

/-- Counterexample to C6 as stated: `rowReversed` has structured data — a
present, well-formed JSON list ["2026-03-05 to 2026-03-01"] — yet its
free-text field is still parsed (the structured expansion is empty), and
determines the contribution. -/
theorem C6_structured_preference_cex :
    (json_loads ("[\"2026-03-05 to 2026-03-01\"]")).map jsonStrList
        = some (some [("2026-03-05 to 2026-03-01")]) ∧
    rowDays 2026 rowReversed = .ok [739981, 739982] ∧
    rowDays 2026 ⟨true, rowReversed.booked_ranges, none⟩ = .ok [] := by decide

/-- C7: a record not flagged active contributes nothing: deleting it from
the row list changes neither the demand histogram nor the grids. -/
theorem C7_inactive_zero (year : ℕ) (pre post : List Row) (r : Row)
    (h : r.active = false) :
    demandDays year (pre ++ r :: post) = demandDays year (pre ++ post) ∧
    build_calendars year (pre ++ r :: post) = build_calendars year (pre ++ post) := by
  have hd : ∀ pre' : List Row,
      demandDays year (pre' ++ r :: post) = demandDays year (pre' ++ post) := by
    intro pre'
    induction pre' with
    | nil =>
      simp only [List.nil_append, demandDays, rowDays, h, Bool.not_false, if_true]
      cases hp : demandDays year post <;> simp
    | cons p pre'' ih =>
      show demandDays year (p :: (pre'' ++ r :: post)) = demandDays year (p :: (pre'' ++ post))
      simp only [demandDays]
      rw [ih]
  refine ⟨hd pre, ?_⟩
  unfold build_calendars
  rw [hd pre]

/-- Witness for C7: dropping an inactive row from a concrete batch. -/
theorem C7_inactive_zero_witness :
    demandDays 2026 ([rowStructured] ++ rowInactive :: []) = demandDays 2026 ([rowStructured] ++ []) ∧
    build_calendars 2026 ([rowStructured] ++ rowInactive :: [])
      = build_calendars 2026 ([rowStructured] ++ []) :=
  C7_inactive_zero 2026 [rowStructured] [] rowInactive rfl

/-- C8 (amended): the aggregation is a pure function of the rows and the
ambient current year; in particular, when every active record has a
usable structured expansion the output does not depend on the current
year at all. -/
theorem C8_year_independence (y₁ y₂ : ℕ) (rows : List Row)
    (h : ∀ r ∈ rows, r.active = true →
      ∃ l, _expand_iso_ranges r.booked_ranges = .ok l ∧ l ≠ []) :
    build_calendars y₁ rows = build_calendars y₂ rows := by
  have hd : ∀ rows' : List Row,
      (∀ r ∈ rows', r.active = true →
        ∃ l, _expand_iso_ranges r.booked_ranges = .ok l ∧ l ≠ []) →
      demandDays y₁ rows' = demandDays y₂ rows' := by
    intro rows'
    induction rows' with
    | nil => intro _; rfl
    | cons r rs ih =>
      intro h'
      have hr : rowDays y₁ r = rowDays y₂ r := by
        by_cases hact : r.active = true
        · obtain ⟨l, hl, hne⟩ := h' r (List.mem_cons_self r rs) hact
          simp [rowDays, hact, hl, hne]
        · have hf : r.active = false := by revert hact; cases r.active <;> simp
          simp [rowDays, hf]
      simp only [demandDays]
      rw [hr, ih (fun q hq => h' q (List.mem_cons_of_mem _ hq))]
  unfold build_calendars
  rw [hd rows h]

/-- Witness for C8 at a batch whose single active record has structured
ranges: the grids are identical across two different current years. -/
theorem C8_year_independence_witness :
    build_calendars 2025 [rowStructured] = build_calendars 2026 [rowStructured] :=
  C8_year_independence 2025 2026 [rowStructured] (by
    intro r hr _
    rw [List.mem_singleton] at hr
    subst hr
    exact ⟨[739981, 739982], by decide, by decide⟩)

/-- Counterexample to C8 as stated: with a free-text-only record the
output depends on the ambient current date — the same rows produce
different month grids when the current year differs. -/
theorem C8_year_independence_cex :
    build_calendars 2025 [rowFreeText] ≠ build_calendars 2026 [rowFreeText] := by decide

/-! ## C1: the `compress_ranges` contract -/

/-- Coverage of the scan: a day is covered by some produced pair iff it
lies in the open run `[start, prev]` or among the remaining input days. -/
lemma rangesLoop_covers (d : ℕ) :
    ∀ (l : List ℕ) (start prev : ℕ), start ≤ prev →
      ((∃ p ∈ rangesLoop start prev l, p.1 ≤ d ∧ d ≤ p.2) ↔
        (start ≤ d ∧ d ≤ prev) ∨ d ∈ l) := by
  intro l
  induction l with
  | nil =>
    intro start prev _
    simp [rangesLoop]
  | cons cur rest ih =>
    intro start prev hsp
    by_cases hc : cur - prev = 1
    · have hcur : cur = prev + 1 := by omega
      rw [show rangesLoop start prev (cur :: rest) = rangesLoop start cur rest from by
        simp [rangesLoop, hc]]
      rw [ih start cur (by omega)]
      simp only [List.mem_cons]
      constructor
      · rintro (⟨h1, h2⟩ | h)
        · by_cases hdc : d = cur
          · exact Or.inr (Or.inl hdc)
          · exact Or.inl ⟨h1, by omega⟩
        · exact Or.inr (Or.inr h)
      · rintro (⟨h1, h2⟩ | hdc | h)
        · exact Or.inl ⟨h1, by omega⟩
        · exact Or.inl ⟨by omega, by omega⟩
        · exact Or.inr h
    · rw [show rangesLoop start prev (cur :: rest) = (start, prev) :: rangesLoop cur cur rest from by
        simp [rangesLoop, hc]]
      simp only [List.mem_cons]
      constructor
      · rintro ⟨p, hp, hcov⟩
        rcases hp with rfl | hp'
        · exact Or.inl hcov
        · rcases (ih cur cur le_rfl).mp ⟨p, hp', hcov⟩ with ⟨h1, h2⟩ | h
          · exact Or.inr (Or.inl (by omega))
          · exact Or.inr (Or.inr h)
      · rintro (⟨h1, h2⟩ | hdc | h)
        · exact ⟨(start, prev), Or.inl rfl, ⟨h1, h2⟩⟩
        · obtain ⟨p, hp, hcov⟩ := (ih cur cur le_rfl).mpr (Or.inl ⟨by omega, by omega⟩)
          exact ⟨p, Or.inr hp, hcov⟩
        · obtain ⟨p, hp, hcov⟩ := (ih cur cur le_rfl).mpr (Or.inr h)
          exact ⟨p, Or.inr hp, hcov⟩

/-- The scan's output begins with a pair starting at `start` and ending no
earlier than `prev`. -/
lemma rangesLoop_head :
    ∀ (l : List ℕ) (start prev : ℕ),
      ∃ e R', rangesLoop start prev l = (start, e) :: R' ∧ prev ≤ e := by
  intro l
  induction l with
  | nil =>
    intro start prev
    exact ⟨prev, [], rfl, le_rfl⟩
  | cons cur rest ih =>
    intro start prev
    by_cases hc : cur - prev = 1
    · obtain ⟨e, R', hR, he⟩ := ih start cur
      exact ⟨e, R', by simp [rangesLoop, hc, hR], by omega⟩
    · exact ⟨prev, rangesLoop cur cur rest, by simp [rangesLoop, hc], le_rfl⟩

/-- On a strictly increasing remainder, the scan yields well-formed pairs
whose consecutive starts are separated from the previous end by a gap of
at least two days (so no two can be merged). -/
lemma rangesLoop_chain :
    ∀ (l : List ℕ) (start prev : ℕ), start ≤ prev →
      List.Chain' (· < ·) (prev :: l) →
      (∀ p ∈ rangesLoop start prev l, p.1 ≤ p.2) ∧
      List.Chain' (fun p q : ℕ × ℕ => p.2 + 1 < q.1) (rangesLoop start prev l) := by
  intro l
  induction l with
  | nil =>
    intro start prev hsp _
    refine ⟨?_, by simp [rangesLoop]⟩
    intro p hp
    simp only [rangesLoop, List.mem_singleton] at hp
    subst hp
    exact hsp
  | cons cur rest ih =>
    intro start prev hsp hch
    have hpc : prev < cur := (List.chain'_cons.mp hch).1
    have hch' : List.Chain' (· < ·) (cur :: rest) := (List.chain'_cons.mp hch).2
    by_cases hc : cur - prev = 1
    · rw [show rangesLoop start prev (cur :: rest) = rangesLoop start cur rest from by
        simp [rangesLoop, hc]]
      exact ih start cur (by omega) hch'
    · have hgap : prev + 2 ≤ cur := by omega
      obtain ⟨hval, hchn⟩ := ih cur cur le_rfl hch'
      rw [show rangesLoop start prev (cur :: rest) = (start, prev) :: rangesLoop cur cur rest from by
        simp [rangesLoop, hc]]
      refine ⟨?_, ?_⟩
      · intro p hp
        rcases List.mem_cons.mp hp with rfl | hp'
        · exact hsp
        · exact hval p hp'
      · rw [List.chain'_cons']
        refine ⟨?_, hchn⟩
        intro q hq
        obtain ⟨e, R', hR, he⟩ := rangesLoop_head rest cur cur
        rw [hR] at hq
        simp only [List.head?_cons, Option.mem_def, Option.some.injEq] at hq
        subst hq
        simpa using by omega

/-- A chain of gap-separated well-formed pairs is pairwise gap-separated. -/
lemma gap_chain_pairwise :
    ∀ (R : List (ℕ × ℕ)), (∀ p ∈ R, p.1 ≤ p.2) →
      List.Chain' (fun p q : ℕ × ℕ => p.2 + 1 < q.1) R →
      List.Pairwise (fun p q : ℕ × ℕ => p.2 + 1 < q.1) R := by
  intro R
  induction R with
  | nil => intro _ _; exact List.Pairwise.nil
  | cons a R ih =>
    intro hval hch
    rw [List.chain'_cons'] at hch
    have hp := ih (fun p hp => hval p (List.mem_cons_of_mem _ hp)) hch.2
    refine List.Pairwise.cons ?_ hp
    intro b hb
    cases R with
    | nil => cases hb
    | cons h t =>
      have hah : a.2 + 1 < h.1 := hch.1 h rfl
      rcases List.mem_cons.mp hb with rfl | hbt
      · exact hah
      · have hhb : h.2 + 1 < b.1 := (List.pairwise_cons.mp hp).1 b hbt
        have hh : h.1 ≤ h.2 := hval h (List.mem_cons_of_mem _ (List.mem_cons_self _ _))
        omega

/-- Pairwise gap-separated pairs cover any given day at most once. -/
lemma pairwise_countP_le_one (d : ℕ) :
    ∀ R : List (ℕ × ℕ),
      List.Pairwise (fun p q : ℕ × ℕ => p.2 + 1 < q.1) R →
      R.countP (fun p => decide (p.1 ≤ d ∧ d ≤ p.2)) ≤ 1 := by
  intro R
  induction R with
  | nil => intro _; simp
  | cons a R ih =>
    intro hp
    rw [List.countP_cons]
    by_cases hcov : a.1 ≤ d ∧ d ≤ a.2
    · have hz : R.countP (fun p => decide (p.1 ≤ d ∧ d ≤ p.2)) = 0 := by
        rw [List.countP_eq_zero]
        intro q hq
        have := (List.pairwise_cons.mp hp).1 q hq
        simp only [decide_eq_true_eq]
        omega
      rw [hz]
      split <;> simp
    · have ht := ih (List.pairwise_cons.mp hp).2
      have hfalse : ¬((fun p : ℕ × ℕ => decide (p.1 ≤ d ∧ d ≤ p.2)) a = true) := by
        simpa using hcov
      rw [if_neg hfalse]
      simpa using ht

/-- C1 (amended): for every duplicate-free input list, `compress_ranges`
produces well-formed inclusive ranges covering exactly the input dates,
each input date covered by exactly one output range, output pairwise
gap-separated (hence disjoint, ascending, and unmergeable), and empty
input yields the empty sequence.  (With duplicated input dates the
exactly-one-coverage and maximality parts fail; see the counterexample.) -/
theorem C1_compress_ranges_contract (dates : List ℕ) (hnd : dates.Nodup) :
    (dates = [] → compress_ranges dates = []) ∧
    (∀ p ∈ compress_ranges dates, p.1 ≤ p.2) ∧
    (∀ d, (∃ p ∈ compress_ranges dates, p.1 ≤ d ∧ d ≤ p.2) ↔ d ∈ dates) ∧
    (∀ d ∈ dates,
      (compress_ranges dates).countP (fun p => decide (p.1 ≤ d ∧ d ≤ p.2)) = 1) ∧
    List.Pairwise (fun p q : ℕ × ℕ => p.2 + 1 < q.1) (compress_ranges dates) := by
  have hperm : (List.insertionSort (· ≤ ·) dates).Perm dates := List.perm_insertionSort _ _
  have hsort : List.Sorted (· ≤ ·) (List.insertionSort (· ≤ ·) dates) :=
    List.sorted_insertionSort _ _
  have hndS : (List.insertionSort (· ≤ ·) dates).Nodup := hperm.nodup_iff.mpr hnd
  cases hs : List.insertionSort (· ≤ ·) dates with
  | nil =>
    rw [hs] at hperm
    have hdates : dates = [] := hperm.symm.eq_nil
    subst hdates
    have hc0 : compress_ranges [] = [] := rfl
    refine ⟨fun _ => hc0, ?_, ?_, ?_, ?_⟩ <;> simp [hc0]
  | cons d0 rest =>
    have hC : compress_ranges dates = rangesLoop d0 d0 rest := by
      unfold compress_ranges
      rw [hs]
    rw [hs] at hsort hndS hperm
    have hchain : List.Chain' (· < ·) (d0 :: rest) := by
      have h1 : List.Pairwise (· ≤ ·) (d0 :: rest) := hsort
      have h2 : List.Pairwise (fun a b : ℕ => a ≠ b) (d0 :: rest) := hndS
      exact List.Pairwise.chain' ((h1.and h2).imp fun h => lt_of_le_of_ne h.1 h.2)
    obtain ⟨hval, hchn⟩ := rangesLoop_chain rest d0 d0 le_rfl hchain
    have hpw := gap_chain_pairwise _ hval hchn
    have hcov : ∀ d, (∃ p ∈ rangesLoop d0 d0 rest, p.1 ≤ d ∧ d ≤ p.2) ↔ d ∈ dates := by
      intro d
      rw [rangesLoop_covers d rest d0 d0 le_rfl]
      constructor
      · rintro (⟨h1, h2⟩ | h)
        · have hd0 : d = d0 := by omega
          subst hd0
          exact hperm.mem_iff.mp (List.mem_cons_self _ _)
        · exact hperm.mem_iff.mp (List.mem_cons_of_mem _ h)
      · intro h
        rcases List.mem_cons.mp (hperm.mem_iff.mpr h) with rfl | h'
        · exact Or.inl ⟨le_rfl, le_rfl⟩
        · exact Or.inr h'
    rw [hC]
    refine ⟨?_, hval, hcov, ?_, hpw⟩
    · intro hdat
      subst hdat
      simp at hperm
    · intro d hd
      have h1 : 0 < (rangesLoop d0 d0 rest).countP (fun p => decide (p.1 ≤ d ∧ d ≤ p.2)) := by
        rw [List.countP_pos_iff]
        obtain ⟨p, hp, hc⟩ := (hcov d).mpr hd
        exact ⟨p, hp, by simpa using hc⟩
      have h2 := pairwise_countP_le_one d _ hpw
      omega

/-- Witness for C1 at the (duplicate-free, unsorted) spec example days
2026-03-05, 2026-03-01, 2026-03-02, 2026-03-03 as rata-die numbers. -/
theorem C1_compress_ranges_contract_witness :
    ([739985, 739981, 739982, 739983] : List ℕ).Nodup ∧
    ((([739985, 739981, 739982, 739983] : List ℕ) = []) →
      compress_ranges [739985, 739981, 739982, 739983] = []) ∧
    (∀ p ∈ compress_ranges [739985, 739981, 739982, 739983], p.1 ≤ p.2) ∧
    (∀ d, (∃ p ∈ compress_ranges [739985, 739981, 739982, 739983], p.1 ≤ d ∧ d ≤ p.2) ↔
      d ∈ ([739985, 739981, 739982, 739983] : List ℕ)) ∧
    (∀ d ∈ ([739985, 739981, 739982, 739983] : List ℕ),
      (compress_ranges [739985, 739981, 739982, 739983]).countP
        (fun p => decide (p.1 ≤ d ∧ d ≤ p.2)) = 1) ∧
    List.Pairwise (fun p q : ℕ × ℕ => p.2 + 1 < q.1)
      (compress_ranges [739985, 739981, 739982, 739983]) :=
  ⟨by decide, C1_compress_ranges_contract [739985, 739981, 739982, 739983] (by decide)⟩

/-- Counterexample to C1 as stated: with the duplicated input
[2026-03-01, 2026-03-01] the output repeats the singleton range, so the
date is covered by two output ranges (not exactly one) and the two equal
ranges could be merged (not maximal). -/
theorem C1_compress_ranges_cex :
    compress_ranges [739981, 739981] = [(739981, 739981), (739981, 739981)] ∧
    (compress_ranges [739981, 739981]).countP
      (fun p => decide (p.1 ≤ 739981 ∧ 739981 ≤ p.2)) = 2 := by decide

/-! ## C5: month-grid span machinery -/

/-- The day of the March-based year is at most 365. -/
lemma civilDoy_le (doe : ℕ) : civilDoy doe ≤ 365 := by
  unfold civilDoy civilYy civilDq
  omega

/-- The shifted month is at most 11 (February). -/
lemma civilMp_le (doe : ℕ) : civilMp doe ≤ 11 := by
  unfold civilMp
  have := civilDoy_le doe
  omega

/-- The year of the era is at most 399. -/
lemma civilYoe_le (doe : ℕ) (h : doe ≤ 146096) : civilYoe doe ≤ 399 := by
  unfold civilYoe civilYy civilDq civilQ civilDc civilC
  omega

/-- The quadrennium index is at most 24 (within the era). -/
lemma civilQ_le (doe : ℕ) (h : doe ≤ 146096) : civilQ doe ≤ 24 := by
  unfold civilQ civilDc civilC
  omega

/-- The year-in-quadrennium index is at most 3. -/
lemma civilYy_le (doe : ℕ) : civilYy doe ≤ 3 := by
  unfold civilYy
  omega

/-- One day forward either stays in the century or starts the next. -/
lemma civilC_step (doe : ℕ) :
    (civilC (doe + 1) = civilC doe ∧ civilDc (doe + 1) = civilDc doe + 1) ∨
    (civilC (doe + 1) = civilC doe + 1 ∧ civilDc (doe + 1) = 0) := by
  unfold civilDc civilC
  omega

/-- One day forward either stays in the quadrennium or starts the next. -/
lemma divmod_step_1461 (dc : ℕ) :
    ((dc + 1) / 1461 = dc / 1461 ∧ (dc + 1) % 1461 = dc % 1461 + 1) ∨
    ((dc + 1) / 1461 = dc / 1461 + 1 ∧ (dc + 1) % 1461 = 0) := by
  omega

/-- One day forward either stays in the year (day-of-year increments) or
starts the next year of the quadrennium. -/
lemma yy_doy_step (dq : ℕ) (h : dq ≤ 1459) :
    (min ((dq + 1) / 365) 3 = min (dq / 365) 3 ∧
      (dq + 1) - 365 * min ((dq + 1) / 365) 3 = (dq - 365 * min (dq / 365) 3) + 1) ∨
    (min ((dq + 1) / 365) 3 = min (dq / 365) 3 + 1 ∧
      (dq + 1) - 365 * min ((dq + 1) / 365) 3 = 0) := by
  omega

/-- The month code never decreases from one day of the era to the next. -/
lemma monthCode_succ (doe : ℕ) (h : doe + 1 ≤ 146096) :
    monthCode doe ≤ monthCode (doe + 1) := by
  have hmp := civilMp_le doe
  have hyy := civilYy_le doe
  have hq := civilQ_le doe (by omega)
  rcases civilC_step doe with ⟨hc, hdc⟩ | ⟨hc, hdc⟩
  · rcases divmod_step_1461 (civilDc doe) with ⟨hs1, hs2⟩ | ⟨hs1, hs2⟩
    · have hdq : civilDq (doe + 1) = civilDq doe + 1 := by
        unfold civilDq
        rw [hdc]
        exact hs2
      have hq2 : civilQ (doe + 1) = civilQ doe := by
        unfold civilQ
        rw [hdc]
        exact hs1
      have hdq_le : civilDq doe ≤ 1459 := by
        have h1 : civilDq (doe + 1) ≤ 1460 := by unfold civilDq; omega
        omega
      rcases yy_doy_step (civilDq doe) hdq_le with ⟨hy1, hy2⟩ | ⟨hy1, hy2⟩
      · have hyy2 : civilYy (doe + 1) = civilYy doe := by
          unfold civilYy
          rw [hdq]
          exact hy1
        have hdoy : civilDoy (doe + 1) = civilDoy doe + 1 := by
          unfold civilDoy civilYy
          rw [hdq]
          exact hy2
        have hmp2 : civilMp doe ≤ civilMp (doe + 1) := by
          unfold civilMp
          rw [hdoy]
          omega
        unfold monthCode civilYoe
        rw [hc, hq2, hyy2]
        omega
      · have hyy2 : civilYy (doe + 1) = civilYy doe + 1 := by
          unfold civilYy
          rw [hdq]
          exact hy1
        have hdoy : civilDoy (doe + 1) = 0 := by
          unfold civilDoy civilYy
          rw [hdq]
          exact hy2
        have hmp0 : civilMp (doe + 1) = 0 := by
          unfold civilMp
          rw [hdoy]
        unfold monthCode civilYoe
        rw [hc, hq2, hyy2, hmp0]
        omega
    · have hdq0 : civilDq (doe + 1) = 0 := by
        unfold civilDq
        rw [hdc]
        exact hs2
      have hq2 : civilQ (doe + 1) = civilQ doe + 1 := by
        unfold civilQ
        rw [hdc]
        exact hs1
      have hyy0 : civilYy (doe + 1) = 0 := by
        unfold civilYy
        rw [hdq0]
        omega
      have hdoy0 : civilDoy (doe + 1) = 0 := by
        unfold civilDoy
        rw [hdq0]
        omega
      have hmp0 : civilMp (doe + 1) = 0 := by
        unfold civilMp
        rw [hdoy0]
      unfold monthCode civilYoe
      rw [hc, hq2, hyy0, hmp0]
      omega
  · have hq0 : civilQ (doe + 1) = 0 := by
      unfold civilQ
      rw [hdc]
    have hdq0 : civilDq (doe + 1) = 0 := by
      unfold civilDq
      rw [hdc]
    have hyy0 : civilYy (doe + 1) = 0 := by
      unfold civilYy
      rw [hdq0]
      omega
    have hdoy0 : civilDoy (doe + 1) = 0 := by
      unfold civilDoy
      rw [hdq0]
      omega
    have hmp0 : civilMp (doe + 1) = 0 := by
      unfold civilMp
      rw [hdoy0]
    unfold monthCode civilYoe
    rw [hc, hq0, hyy0, hmp0]
    omega

/-- The linear month index `12 * year + month` of the date of day `z`,
in closed form. -/
def dayMonthIdx (z : ℕ) : ℕ :=
  4800 * (z / 146097) + monthCode (z % 146097) + 3

/-- `Date.ofDays` realises the closed-form month index. -/
lemma ofDays_monthIdx (z : ℕ) :
    monthIdx ((Date.ofDays z).year, (Date.ofDays z).month) = dayMonthIdx z := by
  unfold Date.ofDays monthIdx dayMonthIdx monthCode
  dsimp only
  have hmp := civilMp_le (z % 146097)
  split <;> split <;> omega

/-- The month index of consecutive days never decreases. -/
lemma dayMonthIdx_succ (z : ℕ) : dayMonthIdx z ≤ dayMonthIdx (z + 1) := by
  unfold dayMonthIdx
  by_cases hw : z % 146097 = 146096
  · have h1 : (z + 1) % 146097 = 0 := by omega
    have h2 : (z + 1) / 146097 = z / 146097 + 1 := by omega
    rw [hw, h1, h2]
    have hc1 : monthCode 146096 = 4799 := by decide
    have hc0 : monthCode 0 = 0 := by decide
    omega
  · have h1 : (z + 1) % 146097 = z % 146097 + 1 := by omega
    have h2 : (z + 1) / 146097 = z / 146097 := by omega
    rw [h1, h2]
    have := monthCode_succ (z % 146097) (by omega)
    omega

/-- The month index of a day number is monotone. -/
lemma dayMonthIdx_mono {z1 z2 : ℕ} (h : z1 ≤ z2) : dayMonthIdx z1 ≤ dayMonthIdx z2 := by
  induction z2, h using Nat.le_induction with
  | base => exact le_rfl
  | succ n _ ih => exact le_trans ih (dayMonthIdx_succ n)

/-- Every produced date has a month in `[1, 12]`. -/
lemma ofDays_month_bounds (z : ℕ) :
    1 ≤ (Date.ofDays z).month ∧ (Date.ofDays z).month ≤ 12 := by
  unfold Date.ofDays
  dsimp only
  have hmp := civilMp_le (z % 146097)
  split <;> omega

/-- A `Nat.min` fold is bounded by its initial value. -/
lemma foldl_min_le_init (t : List ℕ) : ∀ a, t.foldl Nat.min a ≤ a := by
  induction t with
  | nil => intro a; exact le_rfl
  | cons b t ih => intro a; exact le_trans (ih (Nat.min a b)) (Nat.min_le_left a b)

/-- A `Nat.max` fold dominates its initial value. -/
lemma le_foldl_max (t : List ℕ) : ∀ a, a ≤ t.foldl Nat.max a := by
  induction t with
  | nil => intro a; exact le_rfl
  | cons b t ih => intro a; exact le_trans (Nat.le_max_left a b) (ih (Nat.max a b))

/-- `min(demand) ≤ max(demand)`. -/
lemma listMin_le_listMax (l : List ℕ) : listMin l ≤ listMax l := by
  cases l with
  | nil => exact le_rfl
  | cons a t => exact le_trans (foldl_min_le_init t a) (le_foldl_max t a)

/-- The grid loop with exact fuel emits exactly one grid per month index
from `monthIdx ym` through `monthIdx endYm`, each labelled and filled from
`monthWeeks`. -/
lemma monthsLoop_spec (days : List ℕ) (maxc : ℕ) (endYm : ℕ × ℕ) :
    ∀ (fuel : ℕ) (ym : ℕ × ℕ), monthIdx ym + fuel = monthIdx endYm + 1 →
      1 ≤ ym.2 → ym.2 ≤ 12 →
      ((monthsLoop days maxc endYm fuel ym).map (fun g => monthIdx (g.year, g.month))
        = List.range' (monthIdx ym) fuel) ∧
      (∀ g ∈ monthsLoop days maxc endYm fuel ym,
        1 ≤ g.month ∧ g.month ≤ 12 ∧
        g.label = monthName g.month ++ (" ") ++ toString g.year ∧
        g.weeks = monthWeeks days maxc g.year g.month) := by
  intro fuel
  induction fuel with
  | zero =>
    intro ym hf h1 h2
    exact ⟨rfl, fun g hg => absurd hg (List.not_mem_nil g)⟩
  | succ n ih =>
    intro ym hf h1 h2
    have hcond : monthIdx ym ≤ monthIdx endYm := by omega
    have hloop : monthsLoop days maxc endYm (n + 1) ym
        = mkGrid days maxc ym :: monthsLoop days maxc endYm n (nextMonth ym) := by
      simp [monthsLoop, hcond]
    have hnext1 : monthIdx (nextMonth ym) = monthIdx ym + 1 := by
      unfold nextMonth monthIdx
      split <;> dsimp <;> omega
    have hnext2 : 1 ≤ (nextMonth ym).2 ∧ (nextMonth ym).2 ≤ 12 := by
      unfold nextMonth
      split <;> dsimp <;> omega
    obtain ⟨hm, ha⟩ := ih (nextMonth ym) (by omega) hnext2.1 hnext2.2
    rw [hloop]
    constructor
    · simp only [List.map_cons, hm, hnext1]
      show monthIdx ym :: List.range' (monthIdx ym + 1) n = List.range' (monthIdx ym) (n + 1)
      rw [List.range'_succ]
    · intro g hg
      rcases List.mem_cons.mp hg with rfl | hg'
      · exact ⟨h1, h2, rfl, rfl⟩
      · exact ha g hg'

/-- Compact code of a cell for concrete checks: `none` for an empty
padding cell, `some (day, count, band)` for an in-month cell. -/
def cellCode : Cell → Option (ℕ × ℕ × ℕ)
  | .empty => none
  | .day d _ c b => some (d, c, b)

instance : DecidableEq (List (List (Option (ℕ × ℕ × ℕ)))) := inferInstance

instance : DecidableEq (ℕ × List (List (Option (ℕ × ℕ × ℕ)))) := inferInstance

instance : DecidableEq (ℕ × ℕ × List (List (Option (ℕ × ℕ × ℕ)))) := inferInstance

instance : DecidableEq (String × ℕ × ℕ × List (List (Option (ℕ × ℕ × ℕ)))) := inferInstance

/-- The (year, month) of the minimum histogrammed day. -/
def startYmOf (days : List ℕ) : ℕ × ℕ :=
  ((Date.ofDays (listMin days)).year, (Date.ofDays (listMin days)).month)

/-- The (year, month) of the maximum histogrammed day. -/
def endYmOf (days : List ℕ) : ℕ × ℕ :=
  ((Date.ofDays (listMax days)).year, (Date.ofDays (listMax days)).month)

/-- Conclusion of claim C5: an empty histogram yields no grids; a
non-empty one yields a non-empty sequence of grids whose (year, month)
indices are exactly the consecutive months from the month of the minimum
histogrammed date through the month of the maximum, each grid labelled
`"<Month> <year>"` and laid out by `monthWeeks` in full 7-cell
(Monday-first) weeks; and each cell of a month grid is empty exactly when
its date falls outside the grid's month, and otherwise carries the date's
day-of-month, ISO form, histogram count and band. -/
def C5Concl (year : ℕ) (rows : List Row) (days : List ℕ) : Prop :=
  (days = [] → build_calendars year rows = .ok []) ∧
  (days ≠ [] → ∃ cals, build_calendars year rows = .ok cals ∧
    cals ≠ [] ∧
    cals.map (fun g => monthIdx (g.year, g.month))
      = List.range' (monthIdx (startYmOf days))
          (monthIdx (endYmOf days) + 1 - monthIdx (startYmOf days)) ∧
    (∀ g ∈ cals,
      1 ≤ g.month ∧ g.month ≤ 12 ∧
      g.label = monthName g.month ++ (" ") ++ toString g.year ∧
      g.weeks = monthWeeks days (maxCount days) g.year g.month ∧
      ∀ w ∈ g.weeks, w.length = 7)) ∧
  (∀ m z, (Date.ofDays z).month ≠ m → mkCell days (maxCount days) m z = .empty) ∧
  (∀ m z, (Date.ofDays z).month = m →
    mkCell days (maxCount days) m z
      = .day (Date.ofDays z).day (Date.ofDays z).isoformat (days.count z)
        (_band (days.count z) (maxCount days)))

/-- C5: grid construction spans exactly the months of the histogram — no
grids for an empty histogram, else one grid per calendar month from the
month of the minimum date through the month of the maximum, consecutive
with no gaps, Monday-first weeks, out-of-month cells empty, in-month cells
carrying count and band; concretely, a histogram covering only 2026-03-15
through 2026-03-20 yields exactly one grid, labelled "March 2026", with
six leading and five trailing empty cells. -/
theorem C5_month_grids (year : ℕ) (rows : List Row) (days : List ℕ)
    (h : demandDays year rows = .ok days) :
    C5Concl year rows days ∧
    (build_calendars 2026 [rowMarch]).map (fun cs => cs.map (fun g =>
        (g.label, g.year, g.month, g.weeks.map (fun w => w.map cellCode))))
      = .ok [(("March 2026"), 2026, 3,
        [[none, none, none, none, none, none, some (1, 0, 0)],
         [some (2, 0, 0), some (3, 0, 0), some (4, 0, 0), some (5, 0, 0), some (6, 0, 0),
          some (7, 0, 0), some (8, 0, 0)],
         [some (9, 0, 0), some (10, 0, 0), some (11, 0, 0), some (12, 0, 0), some (13, 0, 0),
          some (14, 0, 0), some (15, 1, 4)],
         [some (16, 1, 4), some (17, 1, 4), some (18, 1, 4), some (19, 1, 4), some (20, 1, 4),
          some (21, 0, 0), some (22, 0, 0)],
         [some (23, 0, 0), some (24, 0, 0), some (25, 0, 0), some (26, 0, 0), some (27, 0, 0),
          some (28, 0, 0), some (29, 0, 0)],
         [some (30, 0, 0), some (31, 0, 0), none, none, none, none, none]])] := by
  refine ⟨⟨?_, ?_, ?_, ?_⟩, by decide⟩
  · intro hd
    subst hd
    simp [build_calendars, h]
  · intro hne
    have hidx : monthIdx (startYmOf days) ≤ monthIdx (endYmOf days) := by
      unfold startYmOf endYmOf
      rw [ofDays_monthIdx, ofDays_monthIdx]
      exact dayMonthIdx_mono (listMin_le_listMax days)
    have hb1 := ofDays_month_bounds (listMin days)
    obtain ⟨hmap, hall⟩ := monthsLoop_spec days (maxCount days) (endYmOf days)
      (monthIdx (endYmOf days) + 1 - monthIdx (startYmOf days)) (startYmOf days)
      (by omega) hb1.1 hb1.2
    refine ⟨monthsLoop days (maxCount days) (endYmOf days)
      (monthIdx (endYmOf days) + 1 - monthIdx (startYmOf days)) (startYmOf days),
      ?_, ?_, hmap, ?_⟩
    · simp only [build_calendars, h]
      rw [if_neg hne]
      rfl
    · intro hemp
      rw [hemp] at hmap
      have : monthIdx (endYmOf days) + 1 - monthIdx (startYmOf days) = 0 :=
        List.range'_eq_nil.mp hmap.symm
      omega
    · intro g hg
      obtain ⟨hg1, hg2, hg3, hg4⟩ := hall g hg
      refine ⟨hg1, hg2, hg3, hg4, ?_⟩
      intro w hw
      rw [hg4] at hw
      unfold monthWeeks at hw
      obtain ⟨i, _, rfl⟩ := List.mem_map.mp hw
      simp
  · intro m z hm
    unfold mkCell
    rw [if_pos hm]
  · intro m z hm
    unfold mkCell
    rw [if_neg (by simp [hm])]

/-- Witness for C5 at the concrete March 2026 batch. -/
theorem C5_month_grids_witness :
    demandDays 2026 [rowMarch] = .ok [739995, 739996, 739997, 739998, 739999, 740000] ∧
    (C5Concl 2026 [rowMarch] [739995, 739996, 739997, 739998, 739999, 740000] ∧
    (build_calendars 2026 [rowMarch]).map (fun cs => cs.map (fun g =>
        (g.label, g.year, g.month, g.weeks.map (fun w => w.map cellCode))))
      = .ok [(("March 2026"), 2026, 3,
        [[none, none, none, none, none, none, some (1, 0, 0)],
         [some (2, 0, 0), some (3, 0, 0), some (4, 0, 0), some (5, 0, 0), some (6, 0, 0),
          some (7, 0, 0), some (8, 0, 0)],
         [some (9, 0, 0), some (10, 0, 0), some (11, 0, 0), some (12, 0, 0), some (13, 0, 0),
          some (14, 0, 0), some (15, 1, 4)],
         [some (16, 1, 4), some (17, 1, 4), some (18, 1, 4), some (19, 1, 4), some (20, 1, 4),
          some (21, 0, 0), some (22, 0, 0)],
         [some (23, 0, 0), some (24, 0, 0), some (25, 0, 0), some (26, 0, 0), some (27, 0, 0),
          some (28, 0, 0), some (29, 0, 0)],
         [some (30, 0, 0), some (31, 0, 0), none, none, none, none, none]])]) :=
  ⟨by decide, C5_month_grids 2026 [rowMarch] [739995, 739996, 739997, 739998, 739999, 740000]
    (by decide)⟩
